import Mathlib

/-! Shallow embedding of the T/V register detector (tsimafeip/TV-distinction).

The embedding follows `code/tv_detector.py` and `code/conll_tv_detector.py`:

* `resolve` is the disambiguation policy `(t and not v, v and not t)` that both
  detector classes write inline at the end of their per-sentence routines.
* `SimpleTVDetector` is modelled by the lexicon construction
  (`russian_T_tokens`/`russian_V_tokens` plus first-letter capitalisation),
  whitespace tokenisation of a raw line (`line.strip().split()`), and the
  per-line and batch classification functions.
* `ConllTVDetector` is modelled by `ConllToken` records (`upos`, `lemma`,
  optional `feats` mapping), the per-token checks (which, as in the Python
  code, dereference `feats` only after seeing `upos == "VERB"` and raise an
  `AttributeError` when `feats` is `None`), the per-sentence scan and the
  batch loop.  Fallible Python code is embedded as `Except String`.
* File reading (`open`/`splitlines`, `conllu.parse_incr`) is abstracted as a
  function from a file name to the list of lines / parsed sentences it holds;
  printing is modelled by returning the printed string (`summary_message`).
-/

/-- Disambiguation policy shared by both detectors
(`t_sentence_found = t_token_met and not v_token_met`,
`v_sentence_found = v_token_met and not t_token_met`). -/
def resolve (t_hit v_hit : Bool) : Bool × Bool :=
  (t_hit && !v_hit, v_hit && !t_hit)

/-- ASCII whitespace as recognised by Python `str.strip()` / `str.split()`. -/
def pyIsSpace (c : Char) : Bool :=
  c = ' ' || c = '\t' || c = '\n' || c = '\r' || c = '\x0b' || c = '\x0c'

/-- Python `str.strip()` on a character list: drop whitespace at both ends. -/
def pyStripChars (l : List Char) : List Char :=
  ((l.dropWhile pyIsSpace).reverse.dropWhile pyIsSpace).reverse

/-- Worker for `pySplitWs`: accumulates the current token (reversed). -/
def splitWsAux : List Char → List Char → List String
  | [], acc => if acc = [] then [] else [String.mk acc.reverse]
  | c :: cs, acc =>
    if pyIsSpace c then
      if acc = [] then splitWsAux cs []
      else String.mk acc.reverse :: splitWsAux cs []
    else splitWsAux cs (c :: acc)

/-- Python `str.split()` with no argument: split on whitespace runs,
discarding empty pieces. -/
def pySplitWs (l : List Char) : List String :=
  splitWsAux l []

/-- Embeds `line.strip().split()` from `_token_based_t_v_labels_detection`.
The result models the stream fed into Python's `set(...)`; only membership
in it is ever used. -/
def lineTokens (line : String) : List String :=
  pySplitWs (pyStripChars line.data)

/-- Python `token[0].upper()` restricted to the alphabets appearing in the
lexicon: Cyrillic а–я (and ё) map to their uppercase forms, ASCII letters via
`Char.toUpper`, everything else is unchanged. -/
def pyUpperChar (c : Char) : Char :=
  if c = 'ё' then 'Ё'
  else if 'а' ≤ c ∧ c ≤ 'я' then Char.ofNat (c.toNat - 32)
  else c.toUpper

/-- Embeds `token[0].upper() + token[1:]`: first character uppercased, rest kept.
(Python would raise on an empty string; the lexicon entries are nonempty.) -/
def capitalizeFirst (s : String) : String :=
  match s.data with
  | [] => s
  | c :: cs => String.mk (pyUpperChar c :: cs)

/-- The hand-curated lowercase T-form entries from `_get_russian_T_V_words`.
`"тво\x65м"` transcribes the source literal `'твоeм'`, whose fourth character
is a LATIN small `e` (U+0065), unlike its Cyrillic neighbours. -/
def russian_T_tokens : List String :=
  ["ты", "тебя", "тебе", "тобою", "тобой",
   "твой", "твоего", "твоему", "твоим", "твоём", "тво\x65м",
   "твоё", "твое",
   "твоя", "твоей", "твою", "твоею", "твоей",
   "твои", "твоих", "твоим", "твоими"]

/-- The hand-curated lowercase V-form entries from `_get_russian_T_V_words`. -/
def russian_V_tokens : List String :=
  ["вы", "вас", "вам", "вами",
   "ваш", "вашего", "вашему", "вашего", "вашим", "вашем",
   "ваше",
   "ваша", "вашей", "вашу", "вашею",
   "ваши", "ваших", "вашими", "ваших"]

/-- T lexicon: base entries united with their capitalised variants
(`russian_T_tokens.update({token[0].upper() + token[1:] ...})`).
Python sets are modelled as lists used only through membership. -/
def russian_T_words : List String :=
  russian_T_tokens ++ russian_T_tokens.map capitalizeFirst

/-- V lexicon: base entries united with their capitalised variants. -/
def russian_V_words : List String :=
  russian_V_tokens ++ russian_V_tokens.map capitalizeFirst

/-- Embeds `t_token_met = bool(self.russian_T_words & tokens)`: the token set of the
line intersects the T lexicon. -/
def t_token_met (line : String) : Bool :=
  (lineTokens line).any fun tok => russian_T_words.contains tok

/-- Embeds `v_token_met = bool(self.russian_V_words & tokens)`. -/
def v_token_met (line : String) : Bool :=
  (lineTokens line).any fun tok => russian_V_words.contains tok

/-- Embeds `SimpleTVDetector._token_based_t_v_labels_detection`. -/
def token_based_t_v_labels_detection (line : String) : Bool × Bool :=
  resolve (t_token_met line) (v_token_met line)

/-- Message raised by `detect_t_v_labels` when neither source is supplied. -/
def usageErrorMessage : String :=
  "RuntimeError: Error occured on T/V labels detection. Either source file or list of sentences have to be provided."

/-- Message for Python iterating over `None` (`for line in lines` with
`lines = None`, reachable when `filename` is the empty string). -/
def noneIterError : String :=
  "TypeError: NoneType object is not iterable"

/-- Embeds `SimpleTVDetector.detect_t_v_labels`.  `readLines` stands for
`open(filename).read().splitlines()`.  The guard raises only when *both*
arguments are `None`; when both are given, `if filename:` selects the file
and the in-memory lines are silently ignored. -/
def simple_detect_t_v_labels (lines : Option (List String)) (filename : Option String)
    (readLines : String → List String) : Except String (List (Bool × Bool)) :=
  if filename.isNone && lines.isNone then .error usageErrorMessage
  else
    let src : Except String (List String) :=
      match filename with
      | some f =>
        if f = "" then
          match lines with
          | some ls => .ok ls
          | none => .error noneIterError
        else .ok (readLines f)
      | none =>
        match lines with
        | some ls => .ok ls
        | none => .error noneIterError
    src.map fun ls => ls.map token_based_t_v_labels_detection

/-- Embeds `sum(t_item for t_item, v_item in t_v_list)`. -/
def t_sentences_num (t_v_list : List (Bool × Bool)) : Nat :=
  t_v_list.countP fun p => p.1

/-- Embeds `sum(v_item for t_item, v_item in t_v_list)`. -/
def v_sentences_num (t_v_list : List (Bool × Bool)) : Nat :=
  t_v_list.countP fun p => p.2

/-- The summary line printed by `SimpleTVDetector.detect_t_v_labels`
(the `ConllTVDetector` variant prints the same text with a trailing space). -/
def summary_message (t_v_list : List (Bool × Bool)) : String :=
  let t := t_sentences_num t_v_list
  let v := v_sentences_num t_v_list
  let n : Int := (t_v_list.length : Int) - (v : Int) - (t : Int)
  s!"Neutral sentences: {n}. V sentences found: {v}. T sentences found: {t}."

/-- Constant `SPECIAL_T_TOKEN` from `tv_detector.py`. -/
def SPECIAL_T_TOKEN : String := "<T>"

/-- Constant `SPECIAL_V_TOKEN` from `tv_detector.py`. -/
def SPECIAL_V_TOKEN : String := "<V>"

/-- Pure core of `TVDetector.mark_tv_sentences`: pair each source line with
the label detected from the target file (`zip` truncates to the shorter
list) and prepend the marker token and a space, or keep the line as is. -/
def mark_tv_sentences (source_lines : List String) (t_v_detected : List (Bool × Bool)) :
    List String :=
  (source_lines.zip t_v_detected).map fun p =>
    if p.2.1 then SPECIAL_T_TOKEN ++ " " ++ p.1
    else if p.2.2 then SPECIAL_V_TOKEN ++ " " ++ p.1
    else p.1

/-- One CoNLL token as consumed by `ConllTVDetector`: the `upos` tag, the
`lemma`, and the morphological `feats` mapping, which the `conllu` library
sets to `None` when the FEATS column is `_`. -/
structure ConllToken where
  upos : String
  «lemma» : String
  feats : Option (List (String × String))
deriving DecidableEq

/-- Embeds `feats.get(key)` on a present feats mapping. -/
def featsGet (feats : List (String × String)) (key : String) : Option String :=
  (feats.find? fun p => p.1 == key).map fun p => p.2

/-- Total `feats` access on a token whether or not the mapping is present; used
only to state properties, never by the embedded code, which dereferences
`feats` unconditionally inside the VERB branch. -/
def tokenFeat (tok : ConllToken) (key : String) : Option String :=
  match tok.feats with
  | none => none
  | some fs => featsGet fs key

/-- Message for Python `None.get(...)` (`parsed_token['feats']` is `None`). -/
def attributeErrorMessage : String :=
  "AttributeError: NoneType object has no attribute get"

/-- Embeds `ConllTVDetector._check_token_for_v`.  The Python disjunction
short-circuits, so `feats` is dereferenced only when `upos == 'VERB'`
(a VERB token never satisfies the PRON or DET disjuncts); a VERB token with
`feats = None` raises an `AttributeError`. -/
def check_token_for_v (parsed_token : ConllToken) : Except String Bool :=
  if parsed_token.upos = "PRON" ∧ parsed_token.«lemma» = "вы" then .ok true
  else if parsed_token.upos = "DET" ∧ parsed_token.«lemma» = "ваш" then .ok true
  else if parsed_token.upos = "VERB" then
    match parsed_token.feats with
    | none => .error attributeErrorMessage
    | some fs => .ok (featsGet fs "Number" == some "Plur" && featsGet fs "Person" == some "2")
  else .ok false

/-- Embeds `ConllTVDetector._check_token_for_t`. -/
def check_token_for_t (parsed_token : ConllToken) : Except String Bool :=
  if parsed_token.upos = "PRON" ∧ parsed_token.«lemma» = "ты" then .ok true
  else if parsed_token.upos = "DET" ∧ parsed_token.«lemma» = "твой" then .ok true
  else if parsed_token.upos = "VERB" then
    match parsed_token.feats with
    | none => .error attributeErrorMessage
    | some fs => .ok (featsGet fs "Number" == some "Sing" && featsGet fs "Person" == some "2")
  else .ok false

/-- The accumulator loop of `_detect_t_v_from_conll`: for each token the
V check runs first, then the T check, each `|=`-ed into its flag; a raised
error aborts the whole scan. -/
def conll_hit_flags : List ConllToken → Bool → Bool → Except String (Bool × Bool)
  | [], t_met, v_met => .ok (t_met, v_met)
  | tok :: rest, t_met, v_met =>
    match check_token_for_v tok with
    | .error e => .error e
    | .ok vh =>
      match check_token_for_t tok with
      | .error e => .error e
      | .ok th => conll_hit_flags rest (t_met || th) (v_met || vh)

/-- Embeds `ConllTVDetector._detect_t_v_from_conll`: scan the token list for hit
flags, then apply the disambiguation rule. -/
def detect_t_v_from_conll (conll_token_list : List ConllToken) : Except String (Bool × Bool) :=
  (conll_hit_flags conll_token_list false false).map fun p => resolve p.1 p.2

/-- The batch loop of `ConllTVDetector.detect_t_v_labels`: classify each
parsed sentence in order, aborting on the first raised error. -/
def conll_batch : List (List ConllToken) → Except String (List (Bool × Bool))
  | [] => .ok []
  | s :: rest =>
    match detect_t_v_from_conll s with
    | .error e => .error e
    | .ok lab =>
      match conll_batch rest with
      | .error e => .error e
      | .ok labs => .ok (lab :: labs)

/-- Embeds `ConllTVDetector.detect_t_v_labels`.  `readConll` stands for the stream
of sentences produced by `conllu.parse_incr` on the file; the in-memory
branch receives the sentences produced by `conllu.parse` on each line,
flattened in input order (both parsers are external collaborators).  The
argument guard is identical to the simple detector's. -/
def conll_detect_t_v_labels (sentences : Option (List (List ConllToken)))
    (filename : Option String) (readConll : String → List (List ConllToken)) :
    Except String (List (Bool × Bool)) :=
  if filename.isNone && sentences.isNone then .error usageErrorMessage
  else
    match filename with
    | some f =>
      if f = "" then
        match sentences with
        | some ss => conll_batch ss
        | none => .error noneIterError
      else conll_batch (readConll f)
    | none =>
      match sentences with
      | some ss => conll_batch ss
      | none => .error noneIterError

/-- The V-specific per-token rule in the words of the specification, which
quotes the feature value "Plural" (the code compares against the CoNLL-U
value "Plur"); kept separate so the two can be compared. -/
def spec_v_specific (tok : ConllToken) : Prop :=
  (tok.upos = "PRON" ∧ tok.«lemma» = "вы") ∨
  (tok.upos = "DET" ∧ tok.«lemma» = "ваш") ∨
  (tok.upos = "VERB" ∧ tokenFeat tok "Number" = some "Plural" ∧ tokenFeat tok "Person" = some "2")

/-- The T-specific per-token rule in the words of the specification
("Singular" where the code compares against "Sing"). -/
def spec_t_specific (tok : ConllToken) : Prop :=
  (tok.upos = "PRON" ∧ tok.«lemma» = "ты") ∨
  (tok.upos = "DET" ∧ tok.«lemma» = "твой") ∨
  (tok.upos = "VERB" ∧ tokenFeat tok "Number" = some "Singular" ∧ tokenFeat tok "Person" = some "2")

/-- The V-specific rule actually implemented: as `spec_v_specific` but with
the CoNLL-U feature value "Plur". -/
def code_v_specific (tok : ConllToken) : Prop :=
  (tok.upos = "PRON" ∧ tok.«lemma» = "вы") ∨
  (tok.upos = "DET" ∧ tok.«lemma» = "ваш") ∨
  (tok.upos = "VERB" ∧ tokenFeat tok "Number" = some "Plur" ∧ tokenFeat tok "Person" = some "2")

/-- The T-specific rule actually implemented ("Sing"). -/
def code_t_specific (tok : ConllToken) : Prop :=
  (tok.upos = "PRON" ∧ tok.«lemma» = "ты") ∨
  (tok.upos = "DET" ∧ tok.«lemma» = "твой") ∨
  (tok.upos = "VERB" ∧ tokenFeat tok "Number" = some "Sing" ∧ tokenFeat tok "Person" = some "2")

theorem conll_batch_ok_spec :
    ∀ (ss : List (List ConllToken)) (out : List (Bool × Bool)),
      conll_batch ss = .ok out →
      out.length = ss.length ∧
      ∀ i : Nat, (ss[i]?).map detect_t_v_from_conll = (out[i]?).map Except.ok := by
  intro ss
  induction ss with
  | nil =>
    intro out h
    injection h with h
    subst h
    exact ⟨rfl, fun i => by simp⟩
  | cons s rest ih =>
    intro out h
    unfold conll_batch at h
    cases hd : detect_t_v_from_conll s with
    | error e => rw [hd] at h; cases h
    | ok lab =>
      rw [hd] at h
      cases hr : conll_batch rest with
      | error e => rw [hr] at h; cases h
      | ok labs =>
        rw [hr] at h
        injection h with h
        subst h
        obtain ⟨hl, hi⟩ := ih labs hr
        refine ⟨by simp [hl], fun i => ?_⟩
        cases i with
        | zero => simp [hd]
        | succ n => simpa using hi n

theorem mark_tv_sentences_getElem :
    ∀ (src : List String) (labels : List (Bool × Bool)) (i : Nat),
      (mark_tv_sentences src labels)[i]? =
        match src[i]?, labels[i]? with
        | some line, some lab =>
          some (if lab.1 then SPECIAL_T_TOKEN ++ " " ++ line
                else if lab.2 then SPECIAL_V_TOKEN ++ " " ++ line
                else line)
        | _, _ => none := by
  intro src
  induction src with
  | nil => intro labels i; simp [mark_tv_sentences]
  | cons s rest ih =>
    intro labels i
    cases labels with
    | nil => cases i <;> simp [mark_tv_sentences]
    | cons lab lrest =>
      cases i with
      | zero => simp [mark_tv_sentences]
      | succ n => simpa [mark_tv_sentences] using ih lrest n

theorem conll_hit_flags_error_of_mem :
    ∀ (toks : List ConllToken) (tok : ConllToken),
      tok ∈ toks → tok.upos = "VERB" → tok.feats = none →
      ∀ t v : Bool, ∃ e, conll_hit_flags toks t v = .error e := by
  intro toks
  induction toks with
  | nil => intro tok h; cases h
  | cons a rest ih =>
    intro tok hmem hu hf t v
    rcases List.mem_cons.mp hmem with rfl | hmem'
    · have h1 : ¬(tok.upos = "PRON" ∧ tok.«lemma» = "вы") := by
        rw [hu]; rintro ⟨h, -⟩; exact absurd h (by decide)
      have h2 : ¬(tok.upos = "DET" ∧ tok.«lemma» = "ваш") := by
        rw [hu]; rintro ⟨h, -⟩; exact absurd h (by decide)
      have hv : check_token_for_v tok = .error attributeErrorMessage := by
        unfold check_token_for_v
        rw [if_neg h1, if_neg h2, if_pos hu, hf]
      exact ⟨attributeErrorMessage, by simp [conll_hit_flags, hv]⟩
    · cases hv : check_token_for_v a with
      | error e => exact ⟨e, by simp [conll_hit_flags, hv]⟩
      | ok vh =>
        cases ht : check_token_for_t a with
        | error e => exact ⟨e, by simp [conll_hit_flags, hv, ht]⟩
        | ok th =>
          obtain ⟨e, he⟩ := ih tok hmem' hu hf (t || th) (v || vh)
          exact ⟨e, by simp [conll_hit_flags, hv, ht, he]⟩

theorem check_v_ok_iff (tok : ConllToken) (b : Bool)
    (h : check_token_for_v tok = .ok b) : b = true ↔ code_v_specific tok := by
  unfold check_token_for_v at h
  unfold code_v_specific
  split_ifs at h with h1 h2 h3
  · injection h with h; subst h; simp [h1]
  · injection h with h; subst h; simp [h2]
  · cases hf : tok.feats with
    | none => rw [hf] at h; cases h
    | some fs =>
      rw [hf] at h
      injection h with h
      subst h
      simp [tokenFeat, hf, h1, h2, h3, Bool.and_eq_true, beq_iff_eq]
  · injection h with h; subst h; simp [h1, h2, h3]

theorem check_t_ok_iff (tok : ConllToken) (b : Bool)
    (h : check_token_for_t tok = .ok b) : b = true ↔ code_t_specific tok := by
  unfold check_token_for_t at h
  unfold code_t_specific
  split_ifs at h with h1 h2 h3
  · injection h with h; subst h; simp [h1]
  · injection h with h; subst h; simp [h2]
  · cases hf : tok.feats with
    | none => rw [hf] at h; cases h
    | some fs =>
      rw [hf] at h
      injection h with h
      subst h
      simp [tokenFeat, hf, h1, h2, h3, Bool.and_eq_true, beq_iff_eq]
  · injection h with h; subst h; simp [h1, h2, h3]

theorem t_token_met_iff (s : String) :
    t_token_met s = true ↔ ∃ x ∈ lineTokens s, x ∈ russian_T_words := by
  simp [t_token_met, List.any_eq_true, List.contains, List.elem_iff]

theorem v_token_met_iff (s : String) :
    v_token_met s = true ↔ ∃ x ∈ lineTokens s, x ∈ russian_V_words := by
  simp [v_token_met, List.any_eq_true, List.contains, List.elem_iff]

/-- C1: the register label is `resolve` of the hit flags in both detectors;
`resolve` returns `(t_hit AND NOT v_hit, v_hit AND NOT t_hit)`, is never
`(true, true)`, and maps both-true and both-false hits to `(false, false)`. -/
theorem c1_resolve_register_label :
    (∀ t_hit v_hit : Bool, resolve t_hit v_hit = (t_hit && !v_hit, v_hit && !t_hit)) ∧
    (∀ t_hit v_hit : Bool, resolve t_hit v_hit ≠ (true, true)) ∧
    resolve true true = (false, false) ∧
    resolve false false = (false, false) ∧
    (∀ line : String,
      token_based_t_v_labels_detection line = resolve (t_token_met line) (v_token_met line)) ∧
    (∀ (toks : List ConllToken) (t v : Bool),
      conll_hit_flags toks false false = .ok (t, v) →
      detect_t_v_from_conll toks = .ok (resolve t v)) := by
  refine ⟨fun t v => rfl, by decide, rfl, rfl, fun line => rfl, ?_⟩
  intro toks t v h
  unfold detect_t_v_from_conll
  rw [h]
  rfl

theorem c1_witness : detect_t_v_from_conll [] = .ok (resolve false false) :=
  c1_resolve_register_label.2.2.2.2.2 [] false false rfl

/-- C2: evaluating both batch entry points at the failing input: supplying a
line list *and* a file name raises no usage error (the file silently wins and
the lines are ignored), while supplying neither does raise it. -/
theorem c2_both_sources_not_rejected :
    simple_detect_t_v_labels (some ["ты"]) (some "target.txt") (fun _ => ["вы"]) =
      .ok [(false, true)] ∧
    conll_detect_t_v_labels (some [[⟨"PRON", "ты", none⟩]]) (some "target.conll")
      (fun _ => [[⟨"PRON", "вы", none⟩]]) = .ok [(false, true)] ∧
    simple_detect_t_v_labels none none (fun _ => []) = .error usageErrorMessage ∧
    conll_detect_t_v_labels none none (fun _ => []) = .error usageErrorMessage :=
  ⟨rfl, rfl, rfl, rfl⟩

/-- C3 counterexample: a VERB token whose `Number` feature is literally
"Plural" (resp. "Singular") satisfies the claim's stated condition but the
detector reports it not V-specific (resp. not T-specific): the code compares
against the CoNLL-U values "Plur" and "Sing". -/
theorem c3_plural_literal_disagrees :
    spec_v_specific ⟨"VERB", "сказать", some [("Number", "Plural"), ("Person", "2")]⟩ ∧
    check_token_for_v ⟨"VERB", "сказать", some [("Number", "Plural"), ("Person", "2")]⟩ =
      .ok false ∧
    spec_t_specific ⟨"VERB", "сказать", some [("Number", "Singular"), ("Person", "2")]⟩ ∧
    check_token_for_t ⟨"VERB", "сказать", some [("Number", "Singular"), ("Person", "2")]⟩ =
      .ok false :=
  ⟨Or.inr (Or.inr ⟨rfl, rfl, rfl⟩), rfl, Or.inr (Or.inr ⟨rfl, rfl, rfl⟩), rfl⟩

/-- C3 (amended): whenever a per-token check returns a flag, the flag is true
exactly under the claimed rule with the CoNLL-U feature values "Plur" /
"Sing" in place of "Plural" / "Singular"; a VERB token whose Person feature
is "1" contributes to neither hit. -/
theorem c3_token_rules :
    (∀ (tok : ConllToken) (b : Bool),
      check_token_for_v tok = .ok b → (b = true ↔ code_v_specific tok)) ∧
    (∀ (tok : ConllToken) (b : Bool),
      check_token_for_t tok = .ok b → (b = true ↔ code_t_specific tok)) ∧
    (∀ (tok : ConllToken) (fs : List (String × String)),
      tok.upos = "VERB" → tok.feats = some fs → featsGet fs "Person" = some "1" →
      check_token_for_v tok = .ok false ∧ check_token_for_t tok = .ok false) := by
  refine ⟨check_v_ok_iff, check_t_ok_iff, ?_⟩
  intro tok fs hu hf hp
  have h1v : ¬(tok.upos = "PRON" ∧ tok.«lemma» = "вы") := by
    rw [hu]; rintro ⟨h, -⟩; exact absurd h (by decide)
  have h2v : ¬(tok.upos = "DET" ∧ tok.«lemma» = "ваш") := by
    rw [hu]; rintro ⟨h, -⟩; exact absurd h (by decide)
  have h1t : ¬(tok.upos = "PRON" ∧ tok.«lemma» = "ты") := by
    rw [hu]; rintro ⟨h, -⟩; exact absurd h (by decide)
  have h2t : ¬(tok.upos = "DET" ∧ tok.«lemma» = "твой") := by
    rw [hu]; rintro ⟨h, -⟩; exact absurd h (by decide)
  constructor
  · unfold check_token_for_v
    rw [if_neg h1v, if_neg h2v, if_pos hu, hf]
    simp [hp]
  · unfold check_token_for_t
    rw [if_neg h1t, if_neg h2t, if_pos hu, hf]
    simp [hp]

theorem c3_witness :
    code_v_specific ⟨"VERB", "сказать", some [("Number", "Plur"), ("Person", "2")]⟩ :=
  (c3_token_rules.1 ⟨"VERB", "сказать", some [("Number", "Plur"), ("Person", "2")]⟩ true rfl).mp rfl

/-- C4: the token-based label depends only on which strings occur among the
whitespace tokens of the line, and each hit flag is true exactly when the
token set meets the corresponding lexicon. -/
theorem c4_token_set_determines_label :
    (∀ s1 s2 : String,
      (∀ x : String, x ∈ lineTokens s1 ↔ x ∈ lineTokens s2) →
      token_based_t_v_labels_detection s1 = token_based_t_v_labels_detection s2) ∧
    (∀ s : String,
      (t_token_met s = true ↔ ∃ x ∈ lineTokens s, x ∈ russian_T_words) ∧
      (v_token_met s = true ↔ ∃ x ∈ lineTokens s, x ∈ russian_V_words)) := by
  refine ⟨?_, fun s => ⟨t_token_met_iff s, v_token_met_iff s⟩⟩
  intro s1 s2 hmem
  have ht : t_token_met s1 = t_token_met s2 := by
    rw [Bool.eq_iff_iff, t_token_met_iff, t_token_met_iff]
    exact ⟨fun ⟨x, hx, hw⟩ => ⟨x, (hmem x).mp hx, hw⟩,
           fun ⟨x, hx, hw⟩ => ⟨x, (hmem x).mpr hx, hw⟩⟩
  have hv : v_token_met s1 = v_token_met s2 := by
    rw [Bool.eq_iff_iff, v_token_met_iff, v_token_met_iff]
    exact ⟨fun ⟨x, hx, hw⟩ => ⟨x, (hmem x).mp hx, hw⟩,
           fun ⟨x, hx, hw⟩ => ⟨x, (hmem x).mpr hx, hw⟩⟩
  unfold token_based_t_v_labels_detection
  rw [ht, hv]

theorem c4_witness :
    token_based_t_v_labels_detection "ты ты ты" = token_based_t_v_labels_detection "ты" :=
  c4_token_set_determines_label.1 "ты ты ты" "ты" (by
    have h1 : lineTokens "ты ты ты" = ["ты", "ты", "ты"] := by decide
    have h2 : lineTokens "ты" = ["ты"] := by decide
    intro x
    rw [h1, h2]
    simp)

/-- C5: both batch classifiers preserve input order and cardinality: the
simple detector maps its line list positionally, and a successful CoNLL
batch run yields one label per parsed sentence, position by position. -/
theorem c5_batch_preserves_order :
    (∀ (lines : List String) (readLines : String → List String),
      simple_detect_t_v_labels (some lines) none readLines =
        .ok (lines.map token_based_t_v_labels_detection) ∧
      (lines.map token_based_t_v_labels_detection).length = lines.length ∧
      ∀ i : Nat, (lines.map token_based_t_v_labels_detection)[i]? =
        (lines[i]?).map token_based_t_v_labels_detection) ∧
    (∀ (sentences : List (List ConllToken)) (out : List (Bool × Bool)),
      conll_batch sentences = .ok out →
      out.length = sentences.length ∧
      ∀ i : Nat, (sentences[i]?).map detect_t_v_from_conll = (out[i]?).map Except.ok) :=
  ⟨fun lines _ =>
    ⟨rfl, List.length_map lines token_based_t_v_labels_detection,
     fun i => List.getElem?_map token_based_t_v_labels_detection lines i⟩,
   conll_batch_ok_spec⟩

theorem c5_witness :
    ([(true, false)] : List (Bool × Bool)).length =
      [[(⟨"PRON", "ты", none⟩ : ConllToken)]].length :=
  (c5_batch_preserves_order.2 [[⟨"PRON", "ты", none⟩]] [(true, false)] rfl).1

/-- C6: single-sentence examples for the token-based detector and the
end-to-end run on the three-line corpus, including the printed summary. -/
theorem c6_token_based_examples :
    token_based_t_v_labels_detection "твой" = (true, false) ∧
    token_based_t_v_labels_detection "Ваш" = (false, true) ∧
    token_based_t_v_labels_detection "ты вы" = (false, false) ∧
    simple_detect_t_v_labels (some ["я вижу тебя", "я вижу вас", "я вижу стол"]) none
      (fun _ => []) = .ok [(true, false), (false, true), (false, false)] ∧
    summary_message [(true, false), (false, true), (false, false)] =
      "Neutral sentences: 1. V sentences found: 1. T sentences found: 1." :=
  ⟨by decide, by decide, by decide, rfl, by decide⟩

/-- C7: labeling pairs source lines with labels positionally, truncating to
the shorter list; position `i` carries the T marker, the V marker, or the
unchanged source line, so a neutral label leaves the line exactly as read. -/
theorem c7_mark_tv_positional :
    (∀ (src : List String) (labels : List (Bool × Bool)),
      (mark_tv_sentences src labels).length = min src.length labels.length) ∧
    (∀ (src : List String) (labels : List (Bool × Bool)) (i : Nat),
      (mark_tv_sentences src labels)[i]? =
        match src[i]?, labels[i]? with
        | some line, some lab =>
          some (if lab.1 then SPECIAL_T_TOKEN ++ " " ++ line
                else if lab.2 then SPECIAL_V_TOKEN ++ " " ++ line
                else line)
        | _, _ => none) ∧
    (∀ (src : List String) (labels : List (Bool × Bool)) (i : Nat) (line : String),
      labels[i]? = some (false, false) → src[i]? = some line →
      (mark_tv_sentences src labels)[i]? = some line) := by
  refine ⟨?_, mark_tv_sentences_getElem, ?_⟩
  · intro src labels
    unfold mark_tv_sentences
    rw [List.length_map, List.length_zip]
  · intro src labels i line hlab hsrc
    rw [mark_tv_sentences_getElem, hlab, hsrc]
    simp

theorem c7_witness :
    (mark_tv_sentences ["привет"] [(false, false)])[0]? = some "привет" :=
  c7_mark_tv_positional.2.2 ["привет"] [(false, false)] 0 "привет" rfl rfl

/-- C8: each lexicon is exactly the hand-curated entries together with their
first-letter-capitalised variants, and contains the capitalised variant of
every entry. -/
theorem c8_lexicon_capitalization :
    (∀ w : String, w ∈ russian_T_words ↔
      w ∈ russian_T_tokens ∨ ∃ u ∈ russian_T_tokens, w = capitalizeFirst u) ∧
    (∀ w : String, w ∈ russian_V_words ↔
      w ∈ russian_V_tokens ∨ ∃ u ∈ russian_V_tokens, w = capitalizeFirst u) ∧
    (∀ u ∈ russian_T_tokens, capitalizeFirst u ∈ russian_T_words) ∧
    (∀ u ∈ russian_V_tokens, capitalizeFirst u ∈ russian_V_words) := by
  refine ⟨?_, ?_, ?_, ?_⟩
  · intro w
    simp only [russian_T_words, List.mem_append, List.mem_map]
    constructor
    · rintro (h | ⟨u, hu, rfl⟩)
      · exact Or.inl h
      · exact Or.inr ⟨u, hu, rfl⟩
    · rintro (h | ⟨u, hu, rfl⟩)
      · exact Or.inl h
      · exact Or.inr ⟨u, hu, rfl⟩
  · intro w
    simp only [russian_V_words, List.mem_append, List.mem_map]
    constructor
    · rintro (h | ⟨u, hu, rfl⟩)
      · exact Or.inl h
      · exact Or.inr ⟨u, hu, rfl⟩
    · rintro (h | ⟨u, hu, rfl⟩)
      · exact Or.inl h
      · exact Or.inr ⟨u, hu, rfl⟩
  · intro u hu
    exact List.mem_append_right _ (List.mem_map_of_mem capitalizeFirst hu)
  · intro u hu
    exact List.mem_append_right _ (List.mem_map_of_mem capitalizeFirst hu)

theorem c8_witness : capitalizeFirst "ты" ∈ russian_T_words :=
  c8_lexicon_capitalization.2.2.1 "ты" (by decide)

/-- C9: no word form, capitalised variants included, lies in both lexicons. -/
theorem c9_lexicons_disjoint : ∀ w ∈ russian_T_words, w ∉ russian_V_words := by
  decide

theorem c9_witness : ("ты" : String) ∉ russian_V_words :=
  c9_lexicons_disjoint "ты" (by decide)

/-- C10: the per-token checks raise an AttributeError on a VERB token whose
feats mapping is absent, are total on tokens whose VERB case carries feats,
and a sentence containing such a broken token fails to classify. -/
theorem c10_verb_feats_none_fails :
    (∀ tok : ConllToken, tok.upos = "VERB" → tok.feats = none →
      check_token_for_v tok = .error attributeErrorMessage ∧
      check_token_for_t tok = .error attributeErrorMessage) ∧
    (∀ tok : ConllToken, (tok.upos = "VERB" → tok.feats ≠ none) →
      (∃ b, check_token_for_v tok = .ok b) ∧ (∃ b, check_token_for_t tok = .ok b)) ∧
    (∀ (toks : List ConllToken) (tok : ConllToken),
      tok ∈ toks → tok.upos = "VERB" → tok.feats = none →
      ∃ e, detect_t_v_from_conll toks = .error e) := by
  refine ⟨?_, ?_, ?_⟩
  · intro tok hu hf
    have h1v : ¬(tok.upos = "PRON" ∧ tok.«lemma» = "вы") := by
      rw [hu]; rintro ⟨h, -⟩; exact absurd h (by decide)
    have h2v : ¬(tok.upos = "DET" ∧ tok.«lemma» = "ваш") := by
      rw [hu]; rintro ⟨h, -⟩; exact absurd h (by decide)
    have h1t : ¬(tok.upos = "PRON" ∧ tok.«lemma» = "ты") := by
      rw [hu]; rintro ⟨h, -⟩; exact absurd h (by decide)
    have h2t : ¬(tok.upos = "DET" ∧ tok.«lemma» = "твой") := by
      rw [hu]; rintro ⟨h, -⟩; exact absurd h (by decide)
    constructor
    · unfold check_token_for_v
      rw [if_neg h1v, if_neg h2v, if_pos hu, hf]
    · unfold check_token_for_t
      rw [if_neg h1t, if_neg h2t, if_pos hu, hf]
  · intro tok htot
    constructor
    · unfold check_token_for_v
      split_ifs with h1 h2 h3
      · exact ⟨true, rfl⟩
      · exact ⟨true, rfl⟩
      · cases hf : tok.feats with
        | none => exact absurd hf (htot h3)
        | some fs => exact ⟨_, rfl⟩
      · exact ⟨false, rfl⟩
    · unfold check_token_for_t
      split_ifs with h1 h2 h3
      · exact ⟨true, rfl⟩
      · exact ⟨true, rfl⟩
      · cases hf : tok.feats with
        | none => exact absurd hf (htot h3)
        | some fs => exact ⟨_, rfl⟩
      · exact ⟨false, rfl⟩
  · intro toks tok hmem hu hf
    obtain ⟨e, he⟩ := conll_hit_flags_error_of_mem toks tok hmem hu hf false false
    refine ⟨e, ?_⟩
    unfold detect_t_v_from_conll
    rw [he]
    rfl

theorem c10_witness :
    ∃ e, detect_t_v_from_conll [⟨"VERB", "идти", none⟩] = .error e :=
  c10_verb_feats_none_fails.2.2 [⟨"VERB", "идти", none⟩] ⟨"VERB", "идти", none⟩
    (by decide) rfl rfl
